import Mathlib

/-!
Verification of `MacMCP/replace_unsafe_calls.py`, a static analysis script
that scans Swift sources for direct `AXUIElementCopyAttributeValue` calls and
suggests `SafeAttributeAccess` replacements.

File texts are modelled as `List Char`.  The single regular expression

  AXUIElementCopyAttributeValue\(([^,]+),\s*"([^"]+)"\s*as\s*CFString,\s*&([^)]+)\)

is deterministic: each quantified sub-pattern is a character class that
excludes the literal character that follows it, so greedy matching with
backtracking coincides with "take the maximal run, then require the literal".
We embed it as the functional matcher `matchAt`, and `re.finditer`'s
leftmost, non-overlapping scan as `scan`.
-/

/-- Python whitespace (`str.isspace` / the `\s` class of `re` for `str`
patterns): ASCII whitespace, the C1 separator controls, NEL, and the Unicode
space characters. -/
def pySpace (c : Char) : Bool :=
  c == ' ' || c == '\t' || c == '\n' || c == '\r' || c == '\x0b' || c == '\x0c' ||
  c == '\x1c' || c == '\x1d' || c == '\x1e' || c == '\x1f' || c == '\x85' ||
  c == ' ' || c == ' ' || c == ' ' || c == ' ' || c == ' ' ||
  c == ' ' || c == ' ' || c == ' ' || c == ' ' || c == ' ' ||
  c == ' ' || c == ' ' || c == ' ' || c == ' ' || c == ' ' ||
  c == ' ' || c == ' ' || c == '　'

/-- Python `str.strip()`: remove leading and trailing whitespace. -/
def pyStrip (cs : List Char) : List Char :=
  ((cs.dropWhile pySpace).reverse.dropWhile pySpace).reverse

/-- Match a literal character sequence at the head of the input, returning the
rest on success. -/
def lit (l cs : List Char) : Option (List Char) :=
  if cs.take l.length = l then some (cs.drop l.length) else none

/-- Match one specific character at the head of the input. -/
def chr (c : Char) (cs : List Char) : Option (List Char) :=
  match cs with
  | [] => none
  | x :: rest => if x = c then some rest else none

/-- Greedy `[^c]+`: the maximal nonempty run of characters different from `c`,
together with the rest of the input. -/
def plusNot (c : Char) (cs : List Char) : Option (List Char × List Char) :=
  let g := cs.takeWhile (fun x => x ≠ c)
  if g.isEmpty then none else some (g, cs.dropWhile (fun x => x ≠ c))

/-- Greedy `\s*`: drop the maximal run of Python whitespace. -/
def dropWs (cs : List Char) : List Char :=
  cs.dropWhile pySpace

/-- The literal head of the pattern, `AXUIElementCopyAttributeValue(`. -/
def axCallHead : List Char :=
  ("AXUIElementCopyAttributeValue(").data

/-- The three capture groups of one regex match together with the number of
characters the whole match consumed. -/
structure RawMatch where
  g1 : List Char
  g2 : List Char
  g3 : List Char
  consumed : Nat
deriving DecidableEq, Repr

/-- Attempt the pattern
`AXUIElementCopyAttributeValue\(([^,]+),\s*"([^"]+)"\s*as\s*CFString,\s*&([^)]+)\)`
at the start of `cs` (the anchored attempt `re.finditer` makes at each
position). -/
def matchAt (cs : List Char) : Option RawMatch :=
  (lit axCallHead cs).bind fun r1 =>
  (plusNot ',' r1).bind fun g1r2 =>
  (chr ',' g1r2.2).bind fun r3 =>
  (chr '"' (dropWs r3)).bind fun r5 =>
  (plusNot '"' r5).bind fun g2r6 =>
  (chr '"' g2r6.2).bind fun r7 =>
  (lit (("as").data) (dropWs r7)).bind fun r9 =>
  (lit (("CFString,").data) (dropWs r9)).bind fun r11 =>
  (chr '&' (dropWs r11)).bind fun r13 =>
  (plusNot ')' r13).bind fun g3r14 =>
  (chr ')' g3r14.2).bind fun r15 =>
  some ⟨g1r2.1, g2r6.1, g3r14.1, cs.length - r15.length⟩

/-- One record of the `results` list built by `analyze_patterns`: the Python
dict with keys `element`, `attribute`, `var_ref`, `full_match`, `context`,
`start`, `end` (the last is `end_` here since `end` is a Lean keyword). -/
structure MatchRecord where
  element : List Char
  attribute_ : List Char
  var_ref : List Char
  full_match : List Char
  context : List Char
  start : Nat
  end_ : Nat
deriving DecidableEq, Repr, Inhabited

/-- Build the result dict for the match of `r` at absolute offset `pos` of
`content`, mirroring the loop body of `analyze_patterns`:
`element = group(1).strip()`, `attribute = group(2)`,
`var_ref = group(3).strip()`, `full_match = group(0)`, and
`context = content[max(0, start - 100) : min(len(content), end + 100)]`
(Nat subtraction realizes the `max(0, ...)` clamp). -/
def mkRecord (content : List Char) (pos : Nat) (r : RawMatch) : MatchRecord :=
  { element := pyStrip r.g1
    attribute_ := r.g2
    var_ref := pyStrip r.g3
    full_match := (content.drop pos).take r.consumed
    context := (content.drop (pos - 100)).take
      (min content.length (pos + r.consumed + 100) - (pos - 100))
    start := pos
    end_ := pos + r.consumed }

/-- The scan of `re.finditer`: attempt the anchored pattern at each position
from left to right; on success emit the match and continue at its end
(non-overlapping), on failure advance one character.  `max _ 1` guards the
step against empty matches exactly as `finditer` does (our pattern never
matches empty).  The first argument is fuel making the recursion structural;
every step increases `pos` by at least one, so `content.length - pos` fuel is
always enough (`scan` below supplies it). -/
def scanFrom (fuel : Nat) (content : List Char) (pos : Nat) : List (Nat × RawMatch) :=
  match fuel with
  | 0 => []
  | fuel + 1 =>
    if content.length ≤ pos then []
    else
      match matchAt (content.drop pos) with
      | some r => (pos, r) :: scanFrom fuel content (pos + max r.consumed 1)
      | none => scanFrom fuel content (pos + 1)

/-- The full left-to-right scan of a file text. -/
def scan (content : List Char) : List (Nat × RawMatch) :=
  scanFrom content.length content 0

/-- The pure core of `analyze_patterns`: the list of result dicts produced for
a file whose text is `content`. -/
def analyze_patterns (content : List Char) : List MatchRecord :=
  (scan content).map (fun pr => mkRecord content pr.1 pr.2)

/-- The `suggest_replacement` classifier: an ordered chain of membership tests
of the attribute name against six fixed lists, each producing the wrapper call
text (which interpolates both the element and the attribute). -/
def suggest_replacement (m : MatchRecord) : List Char :=
  let attribute_ := m.attribute_
  let element := m.element
  if attribute_ ∈ [("AXChildren").data, ("AXWindows").data, ("AXMenus").data, ("AXTabs").data] then
    ("SafeAttributeAccess.getArrayAttribute(").data ++ element ++
      (", attribute: \"").data ++ attribute_ ++ ("\")").data
  else if attribute_ ∈ [("AXRole").data, ("AXTitle").data, ("AXDescription").data,
      ("AXIdentifier").data, ("AXValue").data] then
    ("SafeAttributeAccess.getStringAttribute(").data ++ element ++
      (", attribute: \"").data ++ attribute_ ++ ("\")").data
  else if attribute_ ∈ [("AXEnabled").data, ("AXFocused").data, ("AXSelected").data,
      ("AXHidden").data, ("AXVisible").data] then
    ("SafeAttributeAccess.getBoolAttribute(").data ++ element ++
      (", attribute: \"").data ++ attribute_ ++ ("\")").data
  else if attribute_ ∈ [("AXFrame").data] then
    ("SafeAttributeAccess.getRectAttribute(").data ++ element ++
      (", attribute: \"").data ++ attribute_ ++ ("\")").data
  else if attribute_ ∈ [("AXPosition").data] then
    ("SafeAttributeAccess.getPointAttribute(").data ++ element ++
      (", attribute: \"").data ++ attribute_ ++ ("\")").data
  else if attribute_ ∈ [("AXSize").data] then
    ("SafeAttributeAccess.getSizeAttribute(").data ++ element ++
      (", attribute: \"").data ++ attribute_ ++ ("\")").data
  else
    ("SafeAttributeAccess.getAttribute(").data ++ element ++
      (", attribute: \"").data ++ attribute_ ++ ("\")").data

/-! Basic facts about the step combinators. -/

theorem take_append_length {α : Type} (l₁ l₂ : List α) : (l₁ ++ l₂).take l₁.length = l₁ := by
  induction l₁ with
  | nil => simp
  | cons a t ih => simp [ih]

theorem drop_append_length {α : Type} (l₁ l₂ : List α) : (l₁ ++ l₂).drop l₁.length = l₂ := by
  induction l₁ with
  | nil => simp
  | cons a t ih => simp [ih]

theorem takeWhile_append_cons (p : Char → Bool) (l₁ : List Char) (c : Char) (l₂ : List Char)
    (h1 : ∀ x ∈ l₁, p x = true) (h2 : p c = false) :
    (l₁ ++ c :: l₂).takeWhile p = l₁ := by
  induction l₁ with
  | nil => simp [List.takeWhile_cons, h2]
  | cons a t ih =>
    have ha : p a = true := h1 a (List.mem_cons_self a t)
    simp only [List.cons_append, List.takeWhile_cons, ha, if_true]
    rw [ih (fun x hx => h1 x (List.mem_cons_of_mem a hx))]

theorem lit_eq {l cs rest : List Char} (h : lit l cs = some rest) : cs = l ++ rest := by
  unfold lit at h
  split at h
  · next heq =>
    obtain rfl : cs.drop l.length = rest := Option.some.inj h
    conv_lhs => rw [← List.take_append_drop l.length cs]
    rw [heq]
  · exact absurd h (by simp)

theorem chr_eq {c : Char} {cs rest : List Char} (h : chr c cs = some rest) : cs = c :: rest := by
  cases cs with
  | nil => simp [chr] at h
  | cons x tail =>
    simp only [chr] at h
    split at h
    · next hx =>
      obtain rfl : tail = rest := Option.some.inj h
      rw [hx]
    · exact absurd h (by simp)

theorem plusNot_eq {c : Char} {cs : List Char} {p : List Char × List Char}
    (h : plusNot c cs = some p) :
    cs = p.1 ++ p.2 ∧ p.1 ≠ [] ∧ ∀ x ∈ p.1, ¬ x = c := by
  simp only [plusNot] at h
  split at h
  · exact absurd h (by simp)
  · next hne =>
    obtain rfl : (cs.takeWhile (fun x => x ≠ c), cs.dropWhile (fun x => x ≠ c)) = p :=
      Option.some.inj h
    refine ⟨(List.takeWhile_append_dropWhile ..).symm, ?_, ?_⟩
    · simpa [List.isEmpty_iff] using hne
    · intro x hx
      simpa using List.mem_takeWhile_imp hx

/-- Inversion of a successful anchored match: the consumed prefix decomposes
exactly as the regular expression dictates. -/
theorem matchAt_decomp {cs : List Char} {r : RawMatch} (h : matchAt cs = some r) :
    ∃ w1 w2 w3 w4 rest : List Char,
      cs = axCallHead ++ r.g1 ++ [','] ++ w1 ++ ['"'] ++ r.g2 ++ ['"'] ++ w2 ++
          ("as").data ++ w3 ++ ("CFString,").data ++ w4 ++ ['&'] ++ r.g3 ++ [')'] ++ rest ∧
      r.consumed + rest.length = cs.length ∧
      r.g1 ≠ [] ∧ (∀ c ∈ r.g1, ¬ c = ',') ∧
      r.g2 ≠ [] ∧ (∀ c ∈ r.g2, ¬ c = '"') ∧
      r.g3 ≠ [] ∧ (∀ c ∈ r.g3, ¬ c = ')') ∧
      (∀ c ∈ w1, pySpace c = true) ∧ (∀ c ∈ w2, pySpace c = true) ∧
      (∀ c ∈ w3, pySpace c = true) ∧ (∀ c ∈ w4, pySpace c = true) := by
  simp only [matchAt, Option.bind_eq_some, Option.some.injEq] at h
  obtain ⟨r1, h1, g1r2, h2, r3, h3, r5, h5, g2r6, h6, r7, h7, r9, h9, r11, h11,
    r13, h13, g3r14, h14, r15, h15, hr⟩ := h
  obtain ⟨e1, hg1ne, hg1⟩ := plusNot_eq h2
  obtain ⟨e5, hg2ne, hg2⟩ := plusNot_eq h6
  obtain ⟨e13, hg3ne, hg3⟩ := plusNot_eq h14
  have e0 : cs = axCallHead ++ r1 := lit_eq h1
  have e2 : g1r2.2 = ',' :: r3 := chr_eq h3
  have hr3 : r3 = r3.takeWhile pySpace ++ '"' :: r5 := by
    conv_lhs => rw [← List.takeWhile_append_dropWhile pySpace r3]
    rw [show r3.dropWhile pySpace = '"' :: r5 from chr_eq h5]
  have e6 : g2r6.2 = '"' :: r7 := chr_eq h7
  have hr7 : r7 = r7.takeWhile pySpace ++ ("as").data ++ r9 := by
    conv_lhs => rw [← List.takeWhile_append_dropWhile pySpace r7]
    rw [show r7.dropWhile pySpace = ("as").data ++ r9 from lit_eq h9, List.append_assoc]
  have hr9 : r9 = r9.takeWhile pySpace ++ ("CFString,").data ++ r11 := by
    conv_lhs => rw [← List.takeWhile_append_dropWhile pySpace r9]
    rw [show r9.dropWhile pySpace = ("CFString,").data ++ r11 from lit_eq h11, List.append_assoc]
  have hr11 : r11 = r11.takeWhile pySpace ++ '&' :: r13 := by
    conv_lhs => rw [← List.takeWhile_append_dropWhile pySpace r11]
    rw [show r11.dropWhile pySpace = '&' :: r13 from chr_eq h13]
  have e14 : g3r14.2 = ')' :: r15 := chr_eq h15
  subst hr
  refine ⟨r3.takeWhile pySpace, r7.takeWhile pySpace, r9.takeWhile pySpace,
    r11.takeWhile pySpace, r15, ?_, ?_, hg1ne, hg1, hg2ne, hg2, hg3ne, hg3,
    fun c hc => List.mem_takeWhile_imp hc, fun c hc => List.mem_takeWhile_imp hc,
    fun c hc => List.mem_takeWhile_imp hc, fun c hc => List.mem_takeWhile_imp hc⟩
  · have hbig := e0
    rw [e1, e2] at hbig
    rw [hr3] at hbig
    rw [e5, e6] at hbig
    rw [hr7] at hbig
    rw [hr9] at hbig
    rw [hr11] at hbig
    rw [e13, e14] at hbig
    rw [hbig]
    simp [List.append_assoc]
  · have hsub : r15.length ≤ cs.length := by
      have hbig := e0
      rw [e1, e2] at hbig
      rw [hr3] at hbig
      rw [e5, e6] at hbig
      rw [hr7] at hbig
      rw [hr9] at hbig
      rw [hr11] at hbig
      rw [e13, e14] at hbig
      have hlen := congrArg List.length hbig
      simp only [List.length_append, List.length_cons] at hlen
      omega
    show cs.length - r15.length + r15.length = cs.length
    omega

/-- The consumed prefix of a successful anchored match, with the trailing rest
cut off. -/
theorem matchAt_take {cs : List Char} {r : RawMatch} (h : matchAt cs = some r) :
    ∃ w1 w2 w3 w4 : List Char,
      cs.take r.consumed = axCallHead ++ r.g1 ++ [','] ++ w1 ++ ['"'] ++ r.g2 ++ ['"'] ++ w2 ++
        ("as").data ++ w3 ++ ("CFString,").data ++ w4 ++ ['&'] ++ r.g3 ++ [')'] ∧
      (∀ c ∈ r.g1, ¬ c = ',') ∧ (∀ c ∈ r.g3, ¬ c = ')') := by
  obtain ⟨w1, w2, w3, w4, rest, hcs, hlen, hg1ne, hg1, hg2ne, hg2, hg3ne, hg3, hws⟩ :=
    matchAt_decomp h
  refine ⟨w1, w2, w3, w4, ?_, hg1, hg3⟩
  have hP : cs = (axCallHead ++ r.g1 ++ [','] ++ w1 ++ ['"'] ++ r.g2 ++ ['"'] ++ w2 ++
      ("as").data ++ w3 ++ ("CFString,").data ++ w4 ++ ['&'] ++ r.g3 ++ [')']) ++ rest := by
    rw [hcs]
  have hlen2 := congrArg List.length hP
  rw [List.length_append] at hlen2
  have hc : r.consumed = (axCallHead ++ r.g1 ++ [','] ++ w1 ++ ['"'] ++ r.g2 ++ ['"'] ++ w2 ++
      ("as").data ++ w3 ++ ("CFString,").data ++ w4 ++ ['&'] ++ r.g3 ++ [')']).length := by
    omega
  rw [hP, hc]
  exact take_append_length _ _

/-- A successful match consumes at least one and at most all characters. -/
theorem matchAt_consumed_bounds {cs : List Char} {r : RawMatch} (h : matchAt cs = some r) :
    1 ≤ r.consumed ∧ r.consumed ≤ cs.length := by
  obtain ⟨w1, w2, w3, w4, rest, hcs, hlen, hrest⟩ := matchAt_decomp h
  have hl := congrArg List.length hcs
  simp only [List.length_append, List.length_cons, List.length_singleton] at hl
  omega

/-- A successful match requires a double-quote character in the input. -/
theorem matchAt_quote {cs : List Char} {r : RawMatch} (h : matchAt cs = some r) :
    '"' ∈ cs := by
  obtain ⟨w1, w2, w3, w4, rest, hcs, hrest⟩ := matchAt_decomp h
  rw [hcs]
  simp

/-- Every pair emitted by the scan sits at a position at least the starting
one, inside the text, and is a successful anchored match there. -/
theorem scanFrom_mem {content : List Char} :
    ∀ (fuel pos : Nat) (pr : Nat × RawMatch), pr ∈ scanFrom fuel content pos →
      pos ≤ pr.1 ∧ pr.1 < content.length ∧ matchAt (content.drop pr.1) = some pr.2 := by
  intro fuel
  induction fuel with
  | zero => intro pos pr h; simp [scanFrom] at h
  | succ n ih =>
    intro pos pr h
    simp only [scanFrom] at h
    split at h
    · simp at h
    · next hlt =>
      split at h
      · next r hm =>
        rcases List.mem_cons.mp h with rfl | h'
        · exact ⟨Nat.le.refl, by omega, hm⟩
        · obtain ⟨h1, h2, h3⟩ := ih _ _ h'
          exact ⟨by omega, h2, h3⟩
      · next hm =>
        obtain ⟨h1, h2, h3⟩ := ih _ _ h
        exact ⟨by omega, h2, h3⟩

/-- Scan results are ordered: each match ends at or before the next begins. -/
theorem scanFrom_chain {content : List Char} :
    ∀ (fuel pos : Nat),
      List.Chain' (fun a b : Nat × RawMatch => a.1 + a.2.consumed ≤ b.1)
        (scanFrom fuel content pos) := by
  intro fuel
  induction fuel with
  | zero => intro pos; simp [scanFrom]
  | succ n ih =>
    intro pos
    simp only [scanFrom]
    split
    · exact List.chain'_nil
    · split
      · next r hm =>
        rw [List.chain'_cons']
        refine ⟨?_, ih _⟩
        intro y hy
        have h1 := scanFrom_mem n (pos + max r.consumed 1) y (List.mem_of_mem_head? hy)
        have h2 : r.consumed ≤ max r.consumed 1 := le_max_left _ _
        show pos + r.consumed ≤ y.1
        omega
      · exact ih _

/-- On a text without any double quote the scan finds nothing. -/
theorem scanFrom_eq_nil {content : List Char} (hq : '"' ∉ content) :
    ∀ (fuel pos : Nat), scanFrom fuel content pos = [] := by
  intro fuel
  induction fuel with
  | zero => intro pos; simp [scanFrom]
  | succ n ih =>
    intro pos
    simp only [scanFrom]
    split
    · rfl
    · split
      · next r hm =>
        exact absurd (List.drop_subset _ _ (matchAt_quote hm)) hq
      · exact ih _

/-! The `main` reporter, modelled as a trace of I/O events plus an exit
status. -/

/-- Spec-worded extraction (for comparison with the code's fields): the
characters of the call's first argument — everything after the literal call
head — up to the first comma. -/
def rawFirstArg (m : MatchRecord) : List Char :=
  (m.full_match.drop axCallHead.length).takeWhile (fun c => ¬ c = ',')

/-- Spec-worded extraction (for comparison with the code's fields): all
characters after the '&' up to the closing parenthesis, reading "the '&'" as
the first one in the matched text (unambiguous on the concrete texts it is
used on). -/
def rawOutVar (m : MatchRecord) : List Char :=
  ((m.full_match.dropWhile (fun c => ¬ c = '&')).drop 1).takeWhile (fun c => ¬ c = ')')

/-- An observable side effect of one run: reading a file, writing a file, or
printing a line to standard output.  The script only ever performs the first
and the last; `writeFile` exists so that the absence of writes is a statement
about the trace, not about the vocabulary. -/
inductive TraceEvent where
  | readFile : String → TraceEvent
  | writeFile : String → String → TraceEvent
  | stdout : String → TraceEvent
deriving DecidableEq, Repr

/-- One invocation: the full `sys.argv` (program name included), whether the
root path exists, and the relative path and text of each `*.swift` file found
under it (in `rglob` order). -/
structure RunInput where
  argv : List String
  rootExists : Bool
  files : List (String × List Char)

/-- The usage line printed on a wrong argument count. -/
def usageLine : String :=
  "Usage: python3 replace_unsafe_calls.py <source_directory>"

/-- The six lines printed for the `i`-th match (0-based here; the script
enumerates from 1, hence `i + 1`). -/
def matchBlock (i : Nat) (m : MatchRecord) : List String :=
  [ ("\n") ++ Nat.repr (i + 1) ++ (". Line area around unsafe call:"),
    ("   Attribute: ") ++ String.mk m.attribute_,
    ("   Element: ") ++ String.mk m.element,
    ("   Current: ") ++ String.mk m.full_match,
    ("   Suggested: ") ++ String.mk (suggest_replacement m),
    ("   Context: ...") ++ String.mk ((pyStrip m.context).take 100) ++ ("...") ]

/-- The events of one loop iteration: the file is opened and read, then — only
when it has matches — the subheader and the per-match blocks are printed. -/
def fileEvents (f : String × List Char) : List TraceEvent :=
  TraceEvent.readFile f.1 ::
    (let ms := analyze_patterns f.2
     if ms.isEmpty then []
     else
       ((("\n=== ") ++ f.1 ++ (" ===")) ::
        (("Found ") ++ Nat.repr ms.length ++ (" unsafe calls:")) ::
        (ms.enum.map (fun im => matchBlock im.1 im.2)).flatten).map TraceEvent.stdout)

/-- The loop accumulator for the summary: `total_matches += len(matches)`,
executed only inside `if matches:`. -/
def total_matches (files : List (String × List Char)) : Nat :=
  files.foldl
    (fun acc f =>
      let ms := analyze_patterns f.2
      if ms.isEmpty then acc else acc + ms.length)
    0

/-- The summary's `Files affected` count:
`len([f for f in swift_files if analyze_patterns(f)])`. -/
def files_affected (files : List (String × List Char)) : Nat :=
  (files.filter (fun f => !(analyze_patterns f.2).isEmpty)).length

/-- The numbers shown in the per-file `Found <N> unsafe calls` subheaders, in
report order (files without matches print no subheader). -/
def printedCounts (files : List (String × List Char)) : List Nat :=
  files.filterMap (fun f =>
    let ms := analyze_patterns f.2
    if ms.isEmpty then none else some ms.length)

/-- Whether the loop printed anything for this file, i.e. whether its block
appears in the report. -/
def printedForFile (f : String × List Char) : Bool :=
  (fileEvents f).any (fun e =>
    match e with
    | TraceEvent.stdout _ => true
    | _ => false)

/-- The fixed trailing checklist. -/
def nextStepsLines : List String :=
  [ ("\nNext steps:"),
    ("1. Review suggestions above"),
    ("2. Update SafeAttributeAccess.swift if needed"),
    ("3. Replace calls systematically, testing as you go"),
    ("4. Focus on high-impact files first (UIInteractionService, ElementPath)") ]

/-- The whole program.  Wrong argument count or a missing root directory print
one line and exit 1; otherwise the header, the per-file loop, and the summary
are printed and the run exits 0.  The second round of `readFile` events before
the `Files affected` line mirrors the summary's recomputation
`[f for f in swift_files if analyze_patterns(f)]`, which re-reads every
file. -/
def mainRun (inp : RunInput) : List TraceEvent × Nat :=
  if inp.argv.length ≠ 2 then
    ([TraceEvent.stdout usageLine], 1)
  else if !inp.rootExists then
    ([TraceEvent.stdout (("Directory ") ++ inp.argv.getD 1 "" ++ (" does not exist"))], 1)
  else
    (TraceEvent.stdout (("Analyzing ") ++ Nat.repr inp.files.length ++ (" Swift files...")) ::
      (inp.files.map fileEvents).flatten ++
      [TraceEvent.stdout ("\n=== SUMMARY ==="),
       TraceEvent.stdout (("Total unsafe calls found: ") ++ Nat.repr (total_matches inp.files))] ++
      inp.files.map (fun f => TraceEvent.readFile f.1) ++
      [TraceEvent.stdout (("Files affected: ") ++ Nat.repr (files_affected inp.files))] ++
      nextStepsLines.map TraceEvent.stdout,
     0)

/-! Sample texts used by witnesses and counterexamples. -/

/-- The spec's first concrete scenario line. -/
def specText1 : List Char :=
  ("AXUIElementCopyAttributeValue(element, \"AXTitle\" as CFString, &titleRef)").data

/-- The spec's second concrete scenario line. -/
def specText2 : List Char :=
  ("AXUIElementCopyAttributeValue(button, \"AXFrame\" as CFString, &frameRef)").data

/-- A call with whitespace padding inside the argument list. -/
def paddedText : List Char :=
  ("AXUIElementCopyAttributeValue( element , \"AXTitle\" as CFString, &titleRef )").data

/-- A call whose attribute argument is a variable name, not a quoted
literal. -/
def varAttrText : List Char :=
  ("AXUIElementCopyAttributeValue(element, kAXTitleAttribute as CFString, &titleRef)").data

/-! Claim theorems. -/

/-- C1: for every attribute name in the collection list the classifier returns
the getArrayAttribute wrapper expression; names in the string list yield
getStringAttribute, the boolean list getBoolAttribute, AXFrame
getRectAttribute, AXPosition getPointAttribute, AXSize getSizeAttribute; and
every attribute name in none of the six lists yields the generic getAttribute
wrapper expression. -/
theorem C1_classifier_category_table (m : MatchRecord) :
    (m.attribute_ ∈ [("AXChildren").data, ("AXWindows").data, ("AXMenus").data,
        ("AXTabs").data] →
      suggest_replacement m = ("SafeAttributeAccess.getArrayAttribute(").data ++ m.element ++
        (", attribute: \"").data ++ m.attribute_ ++ ("\")").data) ∧
    (m.attribute_ ∈ [("AXRole").data, ("AXTitle").data, ("AXDescription").data,
        ("AXIdentifier").data, ("AXValue").data] →
      suggest_replacement m = ("SafeAttributeAccess.getStringAttribute(").data ++ m.element ++
        (", attribute: \"").data ++ m.attribute_ ++ ("\")").data) ∧
    (m.attribute_ ∈ [("AXEnabled").data, ("AXFocused").data, ("AXSelected").data,
        ("AXHidden").data, ("AXVisible").data] →
      suggest_replacement m = ("SafeAttributeAccess.getBoolAttribute(").data ++ m.element ++
        (", attribute: \"").data ++ m.attribute_ ++ ("\")").data) ∧
    (m.attribute_ = ("AXFrame").data →
      suggest_replacement m = ("SafeAttributeAccess.getRectAttribute(").data ++ m.element ++
        (", attribute: \"").data ++ m.attribute_ ++ ("\")").data) ∧
    (m.attribute_ = ("AXPosition").data →
      suggest_replacement m = ("SafeAttributeAccess.getPointAttribute(").data ++ m.element ++
        (", attribute: \"").data ++ m.attribute_ ++ ("\")").data) ∧
    (m.attribute_ = ("AXSize").data →
      suggest_replacement m = ("SafeAttributeAccess.getSizeAttribute(").data ++ m.element ++
        (", attribute: \"").data ++ m.attribute_ ++ ("\")").data) ∧
    (m.attribute_ ∉ [("AXChildren").data, ("AXWindows").data, ("AXMenus").data,
        ("AXTabs").data] →
     m.attribute_ ∉ [("AXRole").data, ("AXTitle").data, ("AXDescription").data,
        ("AXIdentifier").data, ("AXValue").data] →
     m.attribute_ ∉ [("AXEnabled").data, ("AXFocused").data, ("AXSelected").data,
        ("AXHidden").data, ("AXVisible").data] →
     m.attribute_ ∉ [("AXFrame").data] →
     m.attribute_ ∉ [("AXPosition").data] →
     m.attribute_ ∉ [("AXSize").data] →
      suggest_replacement m = ("SafeAttributeAccess.getAttribute(").data ++ m.element ++
        (", attribute: \"").data ++ m.attribute_ ++ ("\")").data) := by
  refine ⟨?_, ?_, ?_, ?_, ?_, ?_, ?_⟩
  · intro h
    simp only [List.mem_cons, List.not_mem_nil, or_false] at h
    rcases h with h | h | h | h <;>
      (simp only [suggest_replacement]; rw [h, if_pos (by decide)])
  · intro h
    simp only [List.mem_cons, List.not_mem_nil, or_false] at h
    rcases h with h | h | h | h | h <;>
      (simp only [suggest_replacement]; rw [h, if_neg (by decide), if_pos (by decide)])
  · intro h
    simp only [List.mem_cons, List.not_mem_nil, or_false] at h
    rcases h with h | h | h | h | h <;>
      (simp only [suggest_replacement];
       rw [h, if_neg (by decide), if_neg (by decide), if_pos (by decide)])
  · intro h
    simp only [suggest_replacement]
    rw [h, if_neg (by decide), if_neg (by decide), if_neg (by decide), if_pos (by decide)]
  · intro h
    simp only [suggest_replacement]
    rw [h, if_neg (by decide), if_neg (by decide), if_neg (by decide), if_neg (by decide),
      if_pos (by decide)]
  · intro h
    simp only [suggest_replacement]
    rw [h, if_neg (by decide), if_neg (by decide), if_neg (by decide), if_neg (by decide),
      if_neg (by decide), if_pos (by decide)]
  · intro h1 h2 h3 h4 h5 h6
    simp only [suggest_replacement]
    rw [if_neg h1, if_neg h2, if_neg h3, if_neg h4, if_neg h5, if_neg h6]

/-- A record with a collection-category attribute, for the C1 witness. -/
def recArray : MatchRecord :=
  ⟨("element").data, ("AXChildren").data, ("ref").data, [], [], 0, 0⟩

/-- A record with an attribute in none of the six category lists. -/
def recCustom : MatchRecord :=
  ⟨("element").data, ("AXCustomFoo").data, ("ref").data, [], [], 0, 0⟩

/-- C1 witness: the classifier evaluated on a collection-category attribute
and on an attribute outside all six lists. -/
theorem C1_classifier_category_table_witness :
    suggest_replacement recArray = ("SafeAttributeAccess.getArrayAttribute(").data ++
      recArray.element ++ (", attribute: \"").data ++ recArray.attribute_ ++ ("\")").data ∧
    suggest_replacement recCustom = ("SafeAttributeAccess.getAttribute(").data ++
      recCustom.element ++ (", attribute: \"").data ++ recCustom.attribute_ ++ ("\")").data :=
  ⟨(C1_classifier_category_table recArray).1 (by decide),
   (C1_classifier_category_table recCustom).2.2.2.2.2.2 (by decide) (by decide) (by decide)
     (by decide) (by decide) (by decide)⟩

/-- Two records sharing the attribute name but with different target-element
expressions. -/
def recElemA : MatchRecord :=
  ⟨("element").data, ("AXTitle").data, ("titleRef").data, [], [], 0, 0⟩

/-- Same attribute as `recElemA`, different element. -/
def recElemB : MatchRecord :=
  ⟨("button").data, ("AXTitle").data, ("titleRef").data, [], [], 0, 0⟩

/-- Same attribute and element as `recElemA`, every other field different. -/
def recElemC : MatchRecord :=
  ⟨("element").data, ("AXTitle").data, ("otherRef").data, ("x").data, ("y").data, 5, 9⟩

/-- C2 is false as stated: the suggestion text interpolates the target-element
expression, so two records with equal attribute names but different element
fields get different suggestions. -/
theorem C2_counterexample_element_matters :
    recElemA.attribute_ = recElemB.attribute_ ∧
    suggest_replacement recElemA ≠ suggest_replacement recElemB := by
  decide

/-- C2 (amended): the suggestion is a pure function of the attribute-name and
target-element fields together; records agreeing on both get the same
suggestion text, whatever their other fields. -/
theorem C2_pure_in_attribute_and_element (m1 m2 : MatchRecord)
    (hattr : m1.attribute_ = m2.attribute_) (helem : m1.element = m2.element) :
    suggest_replacement m1 = suggest_replacement m2 := by
  simp only [suggest_replacement, hattr, helem]

/-- C2 witness: two records differing in `var_ref`, `full_match`, `context`
and offsets, but agreeing on attribute and element, get the same text. -/
theorem C2_pure_in_attribute_and_element_witness :
    suggest_replacement recElemA = suggest_replacement recElemC :=
  C2_pure_in_attribute_and_element recElemA recElemC (by decide) (by decide)

/-- C3: the spec's two concrete scenarios.  The first text yields exactly one
record, with attribute AXTitle and element `element`, suggested as the
getStringAttribute wrapper; the second yields the getRectAttribute wrapper on
`button`. -/
theorem C3_concrete_scenarios :
    (analyze_patterns specText1).map MatchRecord.attribute_ = [("AXTitle").data] ∧
    (analyze_patterns specText1).map MatchRecord.element = [("element").data] ∧
    (analyze_patterns specText1).map suggest_replacement =
      [("SafeAttributeAccess.getStringAttribute(element, attribute: \"AXTitle\")").data] ∧
    (analyze_patterns specText2).map suggest_replacement =
      [("SafeAttributeAccess.getRectAttribute(button, attribute: \"AXFrame\")").data] := by
  decide

/-- C4 is false as stated: on a padded call the element field is the
whitespace-stripped first argument, not "all characters up to the first
comma", and likewise the output-variable field is stripped. -/
theorem C4_counterexample_fields_are_stripped :
    (analyze_patterns paddedText).map rawFirstArg = [(" element ").data] ∧
    (analyze_patterns paddedText).map rawOutVar = [("titleRef ").data] ∧
    (analyze_patterns paddedText).map MatchRecord.element = [("element").data] ∧
    (analyze_patterns paddedText).map MatchRecord.var_ref = [("titleRef").data] ∧
    (analyze_patterns paddedText).map MatchRecord.element ≠
      (analyze_patterns paddedText).map rawFirstArg ∧
    (analyze_patterns paddedText).map MatchRecord.var_ref ≠
      (analyze_patterns paddedText).map rawOutVar := by
  decide

/-- C4 (amended): for every match, the element field equals the characters of
the call's first argument up to the first comma with surrounding whitespace
stripped, and the output-variable field equals the characters after the '&'
up to the closing parenthesis with surrounding whitespace stripped. -/
theorem C4_fields_from_argument_slices (content : List Char) (m : MatchRecord)
    (hm : m ∈ analyze_patterns content) :
    m.element = pyStrip (rawFirstArg m) ∧
    ∃ pre out : List Char,
      m.full_match = pre ++ ['&'] ++ out ++ [')'] ∧
      (∀ c ∈ out, ¬ c = ')') ∧
      m.var_ref = pyStrip out := by
  rw [analyze_patterns] at hm
  obtain ⟨pr, hpr, rfl⟩ := List.mem_map.mp hm
  rw [scan] at hpr
  obtain ⟨hle, hlt, hmt⟩ := scanFrom_mem content.length 0 pr hpr
  obtain ⟨w1, w2, w3, w4, hP, hg1, hg3⟩ := matchAt_take hmt
  constructor
  · show pyStrip pr.2.g1 =
      pyStrip ((((content.drop pr.1).take pr.2.consumed).drop axCallHead.length).takeWhile
        (fun c => ¬ c = ','))
    rw [hP]
    have hassoc :
        axCallHead ++ pr.2.g1 ++ [','] ++ w1 ++ ['"'] ++ pr.2.g2 ++ ['"'] ++ w2 ++
          ("as").data ++ w3 ++ ("CFString,").data ++ w4 ++ ['&'] ++ pr.2.g3 ++ [')'] =
        axCallHead ++ (pr.2.g1 ++ ',' ::
          (w1 ++ '"' :: (pr.2.g2 ++ '"' :: (w2 ++ (("as").data ++ (w3 ++ (("CFString,").data ++
            (w4 ++ '&' :: (pr.2.g3 ++ [')']))))))))) := by
      simp [List.append_assoc]
    rw [hassoc, drop_append_length]
    rw [takeWhile_append_cons _ pr.2.g1 ',' _
      (fun x hx => by simpa using hg1 x hx) (by decide)]
  · refine ⟨axCallHead ++ pr.2.g1 ++ [','] ++ w1 ++ ['"'] ++ pr.2.g2 ++ ['"'] ++ w2 ++
      ("as").data ++ w3 ++ ("CFString,").data ++ w4, pr.2.g3, ?_, hg3, rfl⟩
    show (content.drop pr.1).take pr.2.consumed = _
    rw [hP]

/-- C4 witness: the amended statement evaluated on the padded text's single
record. -/
theorem C4_fields_from_argument_slices_witness :
    ((analyze_patterns paddedText).headD default).element =
      pyStrip (rawFirstArg ((analyze_patterns paddedText).headD default)) :=
  (C4_fields_from_argument_slices paddedText ((analyze_patterns paddedText).headD default)
    (by decide)).1

/-- C5: a call whose attribute argument is not written as a quoted string
literal is never matched.  First conjunct: a text with no double quote at all
(such as one whose attribute argument is a variable name) yields no records.
Second conjunct: every record that is produced comes from matched text in
which the attribute name is enclosed in double quotes. -/
theorem C5_unquoted_attribute_never_matches :
    (∀ content : List Char, '"' ∉ content → analyze_patterns content = []) ∧
    (∀ (content : List Char) (m : MatchRecord), m ∈ analyze_patterns content →
      ∃ pre post : List Char,
        m.full_match = pre ++ ['"'] ++ m.attribute_ ++ ['"'] ++ post) := by
  constructor
  · intro content hq
    rw [analyze_patterns, scan, scanFrom_eq_nil hq]
    rfl
  · intro content m hm
    rw [analyze_patterns] at hm
    obtain ⟨pr, hpr, rfl⟩ := List.mem_map.mp hm
    rw [scan] at hpr
    obtain ⟨hle, hlt, hmt⟩ := scanFrom_mem content.length 0 pr hpr
    obtain ⟨w1, w2, w3, w4, hP, hg1, hg3⟩ := matchAt_take hmt
    refine ⟨axCallHead ++ pr.2.g1 ++ [','] ++ w1,
      w2 ++ ("as").data ++ w3 ++ ("CFString,").data ++ w4 ++ ['&'] ++ pr.2.g3 ++ [')'], ?_⟩
    show (content.drop pr.1).take pr.2.consumed = _
    rw [hP]
    simp [List.append_assoc, mkRecord]

/-- C5 witness: the attribute argument written as a variable name produces no
records. -/
theorem C5_unquoted_attribute_never_matches_witness :
    analyze_patterns varAttrText = [] :=
  C5_unquoted_attribute_never_matches.1 varAttrText (by decide)

/-- C10: every record's offsets satisfy start < end ≤ length, full_match is
the text slice from start to end, context is the clamped 100-character window
slice (Nat subtraction realizing max(0, start - 100)), and the records are in
strictly increasing, non-overlapping offset order. -/
theorem C10_record_offset_invariants (content : List Char) (m : MatchRecord)
    (hm : m ∈ analyze_patterns content) :
    (m.start < m.end_ ∧ m.end_ ≤ content.length ∧
     m.full_match = (content.drop m.start).take (m.end_ - m.start) ∧
     m.context = (content.drop (m.start - 100)).take
       (min content.length (m.end_ + 100) - (m.start - 100))) ∧
    List.Chain' (fun a b => a.end_ ≤ b.start) (analyze_patterns content) := by
  constructor
  · rw [analyze_patterns] at hm
    obtain ⟨pr, hpr, rfl⟩ := List.mem_map.mp hm
    rw [scan] at hpr
    obtain ⟨hle, hlt, hmt⟩ := scanFrom_mem content.length 0 pr hpr
    obtain ⟨h1, h2⟩ := matchAt_consumed_bounds hmt
    have hdl : (content.drop pr.1).length = content.length - pr.1 := List.length_drop _ _
    refine ⟨?_, ?_, ?_, rfl⟩
    · show pr.1 < pr.1 + pr.2.consumed
      omega
    · show pr.1 + pr.2.consumed ≤ content.length
      omega
    · show (content.drop pr.1).take pr.2.consumed =
        (content.drop pr.1).take (pr.1 + pr.2.consumed - pr.1)
      rw [Nat.add_sub_cancel_left]
  · rw [analyze_patterns, scan, List.chain'_map]
    exact scanFrom_chain content.length 0

/-- C10 witness: the invariants evaluated on the single record of the spec's
first scenario text. -/
theorem C10_record_offset_invariants_witness :
    ((analyze_patterns specText1).headD default).start <
      ((analyze_patterns specText1).headD default).end_ ∧
    ((analyze_patterns specText1).headD default).end_ ≤ specText1.length :=
  ⟨((C10_record_offset_invariants specText1 ((analyze_patterns specText1).headD default)
      (by decide)).1).1,
   ((C10_record_offset_invariants specText1 ((analyze_patterns specText1).headD default)
      (by decide)).1).2.1⟩

/-- The loop accumulator, generalized over its starting value. -/
theorem total_matches_foldl (files : List (String × List Char)) :
    ∀ acc : Nat,
      files.foldl
        (fun acc f =>
          let ms := analyze_patterns f.2
          if ms.isEmpty then acc else acc + ms.length)
        acc = acc + (printedCounts files).sum := by
  induction files with
  | nil => intro acc; simp [printedCounts]
  | cons f t ih =>
    intro acc
    simp only [List.foldl_cons, printedCounts, List.filterMap_cons]
    by_cases hE : (analyze_patterns f.2).isEmpty
    · simp only [hE, if_true]
      simpa [printedCounts] using ih acc
    · rw [if_neg hE, ih (acc + (analyze_patterns f.2).length), if_neg hE]
      simp only [List.sum_cons, printedCounts]
      omega

/-- C6: the total printed in the SUMMARY block equals the sum of the per-file
counts printed in the `Found <N> unsafe calls` subheaders. -/
theorem C6_total_is_sum_of_per_file_counts (files : List (String × List Char)) :
    total_matches files = (printedCounts files).sum := by
  rw [total_matches]
  simpa using total_matches_foldl files 0

/-- A file's loop iteration prints something exactly when its match list is
nonempty. -/
theorem printedForFile_iff (f : String × List Char) :
    printedForFile f = !(analyze_patterns f.2).isEmpty := by
  rw [printedForFile, fileEvents]
  by_cases hE : (analyze_patterns f.2).isEmpty
  · simp [hE]
  · simp [hE]

/-- C7: the `Files affected` count printed in the summary equals the number of
scanned files whose block was printed in the report above it. -/
theorem C7_affected_equals_printed_files (files : List (String × List Char)) :
    files_affected files = (files.filter printedForFile).length := by
  rw [files_affected]
  congr 1
  apply List.filter_congr
  intro f hf
  rw [printedForFile_iff]

/-- C8: wrong argument count or a missing root directory exit with status 1
after a single printed line; every other run completes with exit status 0,
however many matches were found. -/
theorem C8_exit_codes (inp : RunInput) :
    (inp.argv.length ≠ 2 →
      (mainRun inp).2 = 1 ∧ (mainRun inp).1 = [TraceEvent.stdout usageLine]) ∧
    (inp.argv.length = 2 → inp.rootExists = false →
      (mainRun inp).2 = 1 ∧
      (mainRun inp).1 =
        [TraceEvent.stdout (("Directory ") ++ inp.argv.getD 1 "" ++ (" does not exist"))]) ∧
    (inp.argv.length = 2 → inp.rootExists = true → (mainRun inp).2 = 0) := by
  refine ⟨?_, ?_, ?_⟩
  · intro h
    rw [mainRun, if_pos h]
    exact ⟨rfl, rfl⟩
  · intro h hroot
    rw [mainRun, if_neg (by omega)]
    rw [hroot]
    exact ⟨rfl, rfl⟩
  · intro h hroot
    rw [mainRun, if_neg (by omega)]
    rw [hroot]
    rfl

/-- C8 witness: the three exit codes evaluated at concrete invocations. -/
theorem C8_exit_codes_witness :
    (mainRun ⟨[("prog")], true, []⟩).2 = 1 ∧
    (mainRun ⟨[("prog"), ("dir")], false, []⟩).2 = 1 ∧
    (mainRun ⟨[("prog"), ("dir")], true, []⟩).2 = 0 :=
  ⟨((C8_exit_codes ⟨[("prog")], true, []⟩).1 (by decide)).1,
   ((C8_exit_codes ⟨[("prog"), ("dir")], false, []⟩).2.1 (by decide) (by decide)).1,
   (C8_exit_codes ⟨[("prog"), ("dir")], true, []⟩).2.2 (by decide) (by decide)⟩

/-- Every event of one loop iteration is a file read or a stdout line. -/
theorem fileEvents_shape (f : String × List Char) (e : TraceEvent)
    (he : e ∈ fileEvents f) :
    (∃ p, e = TraceEvent.readFile p) ∨ (∃ s, e = TraceEvent.stdout s) := by
  simp only [fileEvents] at he
  rcases List.mem_cons.mp he with rfl | h'
  · exact Or.inl ⟨f.1, rfl⟩
  · split at h'
    · simp at h'
    · obtain ⟨s, hs, rfl⟩ := List.mem_map.mp h'
      exact Or.inr ⟨s, rfl⟩

/-- C9: the program's trace consists solely of file reads and standard-output
lines; no run ever contains a file-write event, so scanned files are left
unchanged. -/
theorem C9_trace_is_read_only (inp : RunInput) (e : TraceEvent)
    (he : e ∈ (mainRun inp).1) :
    (∃ p, e = TraceEvent.readFile p) ∨ (∃ s, e = TraceEvent.stdout s) := by
  rw [mainRun] at he
  split at he
  · rcases List.mem_singleton.mp he with rfl
    exact Or.inr ⟨usageLine, rfl⟩
  · split at he
    · rcases List.mem_singleton.mp he with rfl
      exact Or.inr ⟨_, rfl⟩
    · have hA : ∀ x ∈ (inp.files.map fileEvents).flatten,
          (∃ p, x = TraceEvent.readFile p) ∨ (∃ s, x = TraceEvent.stdout s) := by
        intro x hx
        obtain ⟨l, hl, hxl⟩ := List.mem_flatten.mp hx
        obtain ⟨f, hf, rfl⟩ := List.mem_map.mp hl
        exact fileEvents_shape f x hxl
      have hC : ∀ x ∈ inp.files.map (fun f => TraceEvent.readFile f.1),
          (∃ p, x = TraceEvent.readFile p) ∨ (∃ s, x = TraceEvent.stdout s) := by
        intro x hx
        obtain ⟨f, hf, rfl⟩ := List.mem_map.mp hx
        exact Or.inl ⟨f.1, rfl⟩
      have hE : ∀ x ∈ nextStepsLines.map TraceEvent.stdout,
          (∃ p, x = TraceEvent.readFile p) ∨ (∃ s, x = TraceEvent.stdout s) := by
        intro x hx
        obtain ⟨s, hs, rfl⟩ := List.mem_map.mp hx
        exact Or.inr ⟨s, rfl⟩
      rcases List.mem_cons.mp he with rfl | he
      · exact Or.inr ⟨_, rfl⟩
      rcases List.mem_append.mp he with he | he
      rotate_left
      · exact hE e he
      rcases List.mem_append.mp he with he | he
      rotate_left
      · rcases List.mem_singleton.mp he with rfl
        exact Or.inr ⟨_, rfl⟩
      rcases List.mem_append.mp he with he | he
      rotate_left
      · exact hC e he
      rcases List.mem_append.mp he with he | he
      · exact hA e he
      · rcases List.mem_cons.mp he with rfl | he
        · exact Or.inr ⟨_, rfl⟩
        rcases List.mem_singleton.mp he with rfl
        exact Or.inr ⟨_, rfl⟩

/-- C9 witness: the single event of a usage-error run is a stdout line. -/
theorem C9_trace_is_read_only_witness :
    (∃ p, TraceEvent.stdout usageLine = TraceEvent.readFile p) ∨
    (∃ s, TraceEvent.stdout usageLine = TraceEvent.stdout s) :=
  C9_trace_is_read_only ⟨[("prog")], true, []⟩ (TraceEvent.stdout usageLine) (by decide)
